import Mathlib

set_option autoImplicit false

/-!
Verification development for the CSB-Open-API repository.

The Go source is shallowly embedded: each Lean definition mirrors one Go
function (same name where possible, `go`-prefixed helpers for Go built-ins).
Byte buffers are modelled as `List Char` (the render payloads are ASCII
text); Go machine integers are modelled as `Int` (no arithmetic here comes
near overflow); a Go `panic` (out-of-range slice, `make` with negative
length) is modelled as `Option.none` or an explicit `RunError.goPanic`
value; fallible Go code returns `Except`.
-/

namespace Csb

/-- Error codes from error.go (machine-readable strings, as in the source). -/
def ECONFLICT : String := "conflict"

def EINTERNAL : String := "internal"

def EINVALID : String := "invalid"

def ENOTFOUND : String := "not_found"

def ENOTIMPLEMENTED : String := "not_implemented"

def EUNAUTHORIZED : String := "unauthorized"

/-- `csb.Error` from error.go: a machine-readable code plus a message. -/
structure Error where
  code : String
  message : String
deriving DecidableEq, Repr

/-- `FromStatusToErrorCode` from error.go: maps an HTTP status code to a csb
error code; unmapped statuses give `EINTERNAL`.  The Go code scans the
`codes` map, whose values (statuses) are pairwise distinct, so the scan is
deterministic and equal to this case split. -/
def FromStatusToErrorCode (code : Int) : String :=
  if code = 409 then ECONFLICT
  else if code = 400 then EINVALID
  else if code = 404 then ENOTFOUND
  else if code = 501 then ENOTIMPLEMENTED
  else if code = 401 then EUNAUTHORIZED
  else if code = 500 then EINTERNAL
  else EINTERNAL

/-- `Subject` from subject.go (part_003). -/
structure Subject where
  id : Int := 0
  engageCode : String := ""
  name : String := ""
deriving DecidableEq, Repr

/-- `Period`: academic-year/term window.  The source type (not under src/)
is consumed only through its fields and the fullness predicate (spec section 3),
so plain fields suffice; `term` and `importance` pointers are modelled as
values. -/
structure Period where
  academicYear : Int := 0
  term : Int := 0
  importance : String := ""
deriving DecidableEq, Repr

/-- `Mark` from the csb root package: the fields used by the embedded code
(engage parser, mark service).  `createdAt` and the back-pointer to the
student record are not modelled (no claim mentions them). -/
structure Mark where
  id : Int := 0
  studentID : Int := 0
  subject : Subject := {}
  teacher : String := ""
  percentage : Int := 0
  period : Period := {}
deriving DecidableEq, Repr

/-- `Student` from the csb root package: the fields used by the reconciliation
engine.  `subjects` holds the joined `student_takes` rows. -/
structure Student where
  pid : Int := 0
  name : String := ""
  currentYear : Int := 0
  attendsSchool : Bool := false
  subjects : List Subject := []
deriving DecidableEq, Repr

end Csb

namespace Engage

open Csb

/-! ## Go string/slice built-ins used by engage.go -/

/-- Go `bytes.IndexByte`: index of the first occurrence, or -1. -/
def goIndexByte (buf : List Char) (c : Char) : Int :=
  match buf.findIdx? (fun x => x = c) with
  | some i => (i : Int)
  | none => -1

/-- Go `bytes.LastIndexByte`: index of the last occurrence, or -1. -/
def goLastIndexByte (buf : List Char) (c : Char) : Int :=
  match buf.reverse.findIdx? (fun x => x = c) with
  | some i => ((buf.length : Int) - 1 - (i : Int))
  | none => -1

/-- Go slice expression `buf[lo:hi]`.  `none` models the run-time panic when
the bounds are invalid.  (The render buffers come from `make([]byte, n)`,
so capacity equals length.) -/
def goSliceRange (buf : List Char) (lo hi : Int) : Option (List Char) :=
  if 0 ≤ lo ∧ lo ≤ hi ∧ hi ≤ (buf.length : Int) then
    some ((buf.drop lo.toNat).take (hi - lo).toNat)
  else none

/-- Go slice expression `buf[lo:]`. -/
def goSliceFrom (buf : List Char) (lo : Int) : Option (List Char) :=
  goSliceRange buf lo (buf.length : Int)

/-- Go `strings.TrimPrefix s pre`: drop `pre` when it is a leading part of
`s`, else return `s` unchanged. -/
def goTrimPre (s pre : List Char) : List Char :=
  if pre.isPrefixOf s then s.drop pre.length else s

/-- Digit-string value, for `strconv.Atoi`. -/
def digitsVal (s : List Char) : Int :=
  s.foldl (fun a c => 10 * a + ((c.toNat : Int) - ('0'.toNat : Int))) 0

/-- Go `strconv.Atoi`: the whole string must be an optional sign followed by
at least one digit; otherwise an error (`none`). -/
def goAtoi (s : List Char) : Option Int :=
  if s = [] then none
  else if s.headD ' ' = '-' then
    (if s.drop 1 ≠ [] ∧ (s.drop 1).all Char.isDigit then some (-(digitsVal (s.drop 1))) else none)
  else if s.headD ' ' = '+' then
    (if s.drop 1 ≠ [] ∧ (s.drop 1).all Char.isDigit then some (digitsVal (s.drop 1)) else none)
  else if s.all Char.isDigit then some (digitsVal s) else none

/-! ## The percentage regexp

`percentageRegexp = regexp.MustCompile(`\\t\d+`)` — inside a Go raw string
the pattern is backslash backslash t backslash d plus, i.e. the regexp
matches a literal backslash, a literal letter t, then one or more digits
(greedy, leftmost-first, as `FindIndex` does). -/

/-- Length of the `\\t\d+` match anchored at the head of `l`, if any. -/
def percentMatchLen (l : List Char) : Option Nat :=
  match l with
  | c1 :: c2 :: rest =>
    if c1 = '\\' ∧ c2 = 't' then
      (if (rest.takeWhile Char.isDigit).length = 0 then none
       else some (2 + (rest.takeWhile Char.isDigit).length))
    else none
  | _ => none

/-- `percentageRegexp.FindIndex`: leftmost match of `\\t\d+`, returned as a
start/end index pair (indices relative to the full buffer; `i` is the index
of the head of the current suffix). -/
def findPercentFrom : List Char → Nat → Option (Nat × Nat)
  | [], _ => none
  | l@(_ :: rest), i =>
    match percentMatchLen l with
    | some len => some (i, i + len)
    | none => findPercentFrom rest (i + 1)

def findPercent (buf : List Char) : Option (Nat × Nat) :=
  findPercentFrom buf 0

/-! ## The render parser (engage.go, current version) -/

/-- Errors produced by the parser: a typed csb error or a plain Go error. -/
inductive ParseErr
  | csb (code : String) (msg : String)
  | goErr (msg : String)
deriving DecidableEq, Repr

/-- `getSubjectName` from engage.go.  `none` models a slice panic: note the
source takes `y` relative to the suffix `buf[x+2:]` but then slices
`buf[x+2:y]` with `y` used as an absolute index. -/
def getSubjectName (buf : List Char) : Option (String × Int) :=
  let x := goIndexByte buf ','
  if x = -1 then some ("", -1)
  else
    match goSliceFrom buf (x + 2) with
    | none => none
    | some suffix =>
      let y := goIndexByte suffix ','
      if y = -1 then some ("", -1)
      else
        match goSliceRange buf (x + 2) y with
        | none => none
        | some s => some (String.mk s, y)

/-- `getTeacherName` from engage.go.  `none` models a slice panic: the source
returns `string(buf[y+2 : y])`, whose low bound exceeds its high bound. -/
def getTeacherName (buf : List Char) : Option (String × Int) :=
  let x := goIndexByte buf '<'
  if x = -1 then some ("", -1)
  else
    match goSliceRange buf 0 (x + 1) with
    | none => none
    | some pre =>
      let y := goLastIndexByte pre ','
      if y = -1 then some ("", -1)
      else
        match goSliceRange buf (y + 2) y with
        | none => none
        | some s => some (String.mk s, y)

/-- `GetMarkFromRender` from engage.go: extract the first
(percentage, subject, teacher) tuple and the resume offset.  The outer
`Option` models a Go panic (`none`); the `Except` models the returned
error value. -/
def GetMarkFromRender (renderBuf : List Char) : Option (Except ParseErr (Mark × Int)) :=
  match findPercent renderBuf with
  | none => some (.error (.csb ENOTFOUND "couldnt match any percentage from current render"))
  | some (s, e) =>
    match goSliceRange renderBuf (s : Int) (e : Int) with
    | none => none
    | some raw =>
      match goAtoi (goTrimPre raw ['\t']) with
      | none => some (.error (.goErr "strconv.Atoi: parsing: invalid syntax"))
      | some percentage =>
        let n1 : Int := (e : Int)
        match goSliceFrom renderBuf n1 with
        | none => none
        | some buf1 =>
          match getSubjectName buf1 with
          | none => none
          | some (subject, remX) =>
            if remX = -1 then some (.error (.goErr "unexpected buffer index"))
            else
              let n2 := n1 + remX
              match goSliceFrom renderBuf n2 with
              | none => none
              | some buf2 =>
                match getTeacherName buf2 with
                | none => none
                | some (teacher, remX2) =>
                  if remX2 = 1 then some (.error (.goErr "unexpected buffer index"))
                  else
                    some (.ok
                      ({ percentage := percentage,
                         subject := { name := subject },
                         teacher := teacher : Mark }, n2 + remX2))

end Engage

namespace Engage

open Csb

/-! ## The upstream client envelope (engage.go, current version)

The network exchange itself is outside the embedding: each client call is
modelled as a function of the response the transport handed back. -/

/-- One row of the shared response envelope (`engageData`). -/
structure EngageData where
  value : String := ""
  text : String := ""
deriving DecidableEq, Repr

/-- The shared response envelope (`engageResponse`): a `d` array of rows. -/
structure EngageResponse where
  d : List EngageData := []
deriving DecidableEq, Repr

/-- A transport response as consumed by `post`: HTTP status, whether the
error body was empty, and the JSON decoding of a 200 body. -/
structure PostResponse where
  status : Int := 200
  bodyEmpty : Bool := false
  decoded : Option EngageResponse := none
deriving DecidableEq, Repr

/-- `decodeError` from engage.go: every branch yields a csb error whose code
is `FromStatusToErrorCode status` (empty body, undecodable body and decoded
engage error differ only in the message). -/
def decodeError (status : Int) (bodyEmpty : Bool) : Csb.Error :=
  if bodyEmpty then ⟨FromStatusToErrorCode status, "engage: error body empty"⟩
  else ⟨FromStatusToErrorCode status, "engage: upstream message, stack trace, exception type"⟩

/-- `(*Client).post` from engage.go: non-200 statuses go through
`decodeError`; a 200 body that fails to decode is a plain error (classified
`EINTERNAL` by `ErrorCode`); a 200 response with zero data rows is
special-cased to `ENOTFOUND`; otherwise the envelope is returned. -/
def Client.post (resp : PostResponse) : Except Csb.Error EngageResponse :=
  if resp.status ≠ 200 then .error (decodeError resp.status resp.bodyEmpty)
  else
    match resp.decoded with
    | none => .error ⟨EINTERNAL, "json: decode failure"⟩
    | some res =>
      if res.d.length = 0 then .error ⟨ENOTFOUND, "engage: invalid PID"⟩
      else .ok res

/-- A transport response as consumed by `GetMarksheetRender`: the raw body
is kept as bytes, no envelope decoding happens on this path. -/
structure RenderResponse where
  status : Int := 200
  contentLength : Int := 0
  body : List Char := []
  bodyEmpty : Bool := false
deriving DecidableEq, Repr

/-- `(*Client).GetMarksheetRender` from engage.go: it does NOT go through
`post`; a non-200 status goes through `decodeError`, a 200 response with
`ContentLength == 9200` is special-cased to `ENOTFOUND` ("couldnt find
pupil"), and any other 200 response returns the raw body bytes. -/
def Client.GetMarksheetRender (resp : RenderResponse) : Except Csb.Error (List Char) :=
  if resp.status ≠ 200 then .error (decodeError resp.status resp.bodyEmpty)
  else if resp.contentLength = 9200 then .error ⟨ENOTFOUND, "couldnt find pupil"⟩
  else .ok resp.body

/-- Whether a client result is a NotFound-kind error (decidable checker used
to state counterexamples). -/
def isNotFoundErr {α : Type} (r : Except Csb.Error α) : Bool :=
  match r with
  | .error e => e.code = ENOTFOUND
  | .ok _ => false

end Engage

namespace Sqlite

open Csb

/-! ## The local store model (sqlite package)

The relational store is modelled as explicit row lists.  Execution inside an
open transaction works on a `DB` value; the list of executed statements is
logged as `Write` values.  Whether the transaction is committed is decided
by the service wrappers, exactly where the source calls (or fails to call)
`tx.Commit()` under its `defer tx.Rollback()`. -/

/-- An error produced while running a service call: a csb typed error, a Go
panic (modelled explicitly), or a context cancellation. -/
inductive RunError
  | csbErr (code : String) (msg : String)
  | goPanic (msg : String)
  | ctxCanceled (msg : String)
deriving DecidableEq, Repr

/-- The local store: `students` rows (with their `student_takes` subjects
joined, as `findStudents` returns them), the `subjects` table, and the
`marks` table. -/
structure DB where
  students : List Student := []
  subjectRows : List Subject := []
  marks : List Mark := []
deriving DecidableEq, Repr

/-- One executed mutating SQL statement. -/
inductive Write
  | insertStudent (pid : Int)
  | updateStudentRow (pid : Int)
  | deleteStudentRow (pid : Int)
  | attachSubjectRow (pid : Int) (subjectId : Int)
  | insertMark (studentId : Int) (subjectName : String)
deriving DecidableEq, Repr

/-- One observable step of a refresh run: an upstream fetch, an executed
write, the pacing wait (`<-time.After(engage.RequestTimeout)`), or the
cancellation token firing (`<-ctx.Done()`). -/
inductive Event
  | fetchEngageStudent (pid : Int)
  | fetchEngageMarks (pid : Int) (period : Period)
  | dbWrite (w : Write)
  | pacingWait
  | ctxDone
deriving DecidableEq, Repr

/-- Modelled from the spec: `findStudents` (body elided in src/) queries the
local store by filter; with a PID filter it returns the rows with that pid,
subjects joined. -/
def findStudentsByPID (db : DB) (pid : Int) : List Student :=
  db.students.filter (fun s => s.pid = pid)

/-- `findStudentByPID` from part_002: first row for the pid, `ENOTFOUND` if
there is none. -/
def findStudentByPID (db : DB) (pid : Int) : Except RunError Student :=
  match findStudentsByPID db pid with
  | [] => .error (.csbErr ENOTFOUND "student not found")
  | s :: _ => .ok s

/-- `findSubjectByEngageCode` from sqlite/subject.go. -/
def findSubjectByEngageCode (db : DB) (code : String) : Except RunError Subject :=
  match db.subjectRows.find? (fun s => s.engageCode = code) with
  | none => .error (.csbErr ENOTFOUND "no subject found")
  | some s => .ok s

/-- `findSubjectByName` from sqlite/subject.go. -/
def findSubjectByName (db : DB) (name : String) : Except RunError Subject :=
  match db.subjectRows.find? (fun s => s.name = name) with
  | none => .error (.csbErr ENOTFOUND "no subject found")
  | some s => .ok s

/-- `findSubjectByID` from sqlite/subject.go. -/
def findSubjectByID (db : DB) (id : Int) : Except RunError Subject :=
  match db.subjectRows.find? (fun s => s.id = id) with
  | none => .error (.csbErr ENOTFOUND "no subject found")
  | some s => .ok s

/-- `attachSubjectCode` (named `attachSubjectCodeToStudent` in
sqlite/subject.go): look the subject up by engage code (`ENOTFOUND` if it is
not in the table), then insert a `student_takes` row.  The migration
(part_003) declares `UNIQUE(student_id, subject_id)` and a foreign key on
the student, modelled as errors. -/
def attachSubjectCode (db : DB) (pid : Int) (code : String) : Except RunError (DB × List Write) :=
  match findSubjectByEngageCode db code with
  | .error e => .error e
  | .ok subject =>
    match db.students.find? (fun s => s.pid = pid) with
    | none => .error (.csbErr EINTERNAL "foreign key: student missing")
    | some st =>
      if st.subjects.any (fun q => q.id = subject.id) then
        .error (.csbErr EINTERNAL "unique constraint: student_takes")
      else
        .ok ({ db with students := db.students.map (fun s =>
                 if s.pid = pid then { s with subjects := s.subjects ++ [subject] } else s) },
             [.attachSubjectRow pid subject.id])

/-- The subject-attach loop shared by `createStudent` and `updateStudent`
(both iterate `attachSubjectCode` over a subject list and stop at the first
error). -/
def attachSubjects : DB → Int → List String → List Write → Except RunError (DB × List Write)
  | db, _, [], acc => .ok (db, acc)
  | db, pid, code :: rest, acc =>
    match attachSubjectCode db pid code with
    | .error e => .error e
    | .ok (db1, ws) => attachSubjects db1 pid rest (acc ++ ws)

/-- Modelled from the spec: `(*csb.Student).Validate` is not under src/.
The spec's decision table and scenario admit no student-level rejection of
an upstream record, so validation accepts every student. -/
def studentValidate (_ : Student) : Except RunError Unit := .ok ()

/-- Modelled from the spec: `(*csb.Mark).Validate` is not under src/.  The
spec (section 8) states that a percentage outside [0,100] is rejected before
persistence; the only mark field the spec constrains. -/
def markValidate (m : Mark) : Except RunError Unit :=
  if m.percentage < 0 ∨ 100 < m.percentage then
    .error (.csbErr EINVALID "mark percentage out of range")
  else .ok ()

/-- `createStudent` from part_002: validate, insert the student row
(`pid` is the primary key), then attach each upstream subject code. -/
def createStudent (db : DB) (student : Student) : Except RunError (DB × List Write) :=
  match studentValidate student with
  | .error e => .error e
  | .ok _ =>
    if db.students.any (fun s => s.pid = student.pid) then
      .error (.csbErr EINTERNAL "unique constraint: students.pid")
    else
      attachSubjects
        { db with students := db.students ++ [{ student with subjects := [] }] }
        student.pid (student.subjects.map (fun s => s.engageCode))
        [.insertStudent student.pid]

/-- `deleteStudent` from part_002: `ENOTFOUND` when absent, else delete the
row (the migrations cascade `student_takes` and `marks` rows of the pid). -/
def deleteStudent (db : DB) (pid : Int) : Except RunError (DB × List Write) :=
  match findStudentByPID db pid with
  | .error e => .error e
  | .ok _ =>
    .ok ({ db with students := db.students.filter (fun s => s.pid ≠ pid),
                   marks := db.marks.filter (fun m => m.studentID ≠ pid) },
         [.deleteStudentRow pid])

/-- `updateStudent` from part_002.  The subject diff is computed ONLY when
the two lists differ in length; `make([]csb.Subject, diff)` with a negative
`diff` is a run-time panic, and with a positive one it seeds the add-list
with `diff` zero-value subjects before the append loop.  After the attach
loop, the student row is updated (year, attendance). -/
def updateStudent (db : DB) (prev next : Student) : Except RunError (DB × List Write) :=
  match studentValidate next with
  | .error e => .error e
  | .ok _ =>
    let addRes : Except RunError (List Subject) :=
      if next.subjects.length ≠ prev.subjects.length then
        let diff : Int := (next.subjects.length : Int) - (prev.subjects.length : Int)
        if diff < 0 then .error (.goPanic "makeslice: len out of range")
        else .ok (List.replicate diff.toNat ({} : Subject) ++
          next.subjects.filter (fun v => ¬ prev.subjects.any (fun p => p.engageCode = v.engageCode)))
      else .ok []
    match addRes with
    | .error e => .error e
    | .ok addSubjects =>
      match attachSubjects db prev.pid (addSubjects.map (fun s => s.engageCode)) [] with
      | .error e => .error e
      | .ok (db1, ws) =>
        .ok ({ db1 with students := db1.students.map (fun s =>
                 if s.pid = prev.pid then
                   { s with currentYear := next.currentYear, attendsSchool := next.attendsSchool }
                 else s) },
             ws ++ [.updateStudentRow prev.pid])

/-- One iteration of the `RefreshStudents` loop (part_002): fetch the
upstream record (the upstream client is modelled as a total oracle
`up : Int → Option Student`; an `ENOTFOUND` from it is the `none` case, as
the source treats that code as a valid branch), fetch the local record, and
apply the switch.  The Go switch has no case for upstream-absent with a
local row, so that combination falls through untouched. -/
def refreshIter (up : Int → Option Student) (purge : Bool) (db : DB) (pid : Int) :
    List Event × Except RunError DB :=
  match up pid, (findStudentsByPID db pid).head? with
  | none, none => ([Event.fetchEngageStudent pid], .ok db)
  | none, some _ => ([Event.fetchEngageStudent pid], .ok db)
  | some se, none =>
    if ¬ se.attendsSchool ∧ purge then ([Event.fetchEngageStudent pid], .ok db)
    else
      match createStudent db se with
      | .error e => ([Event.fetchEngageStudent pid], .error e)
      | .ok (db1, ws) =>
        ([Event.fetchEngageStudent pid] ++ ws.map Event.dbWrite, .ok db1)
  | some se, some sl =>
    if ¬ se.attendsSchool ∧ purge then
      match deleteStudent db pid with
      | .error e => ([Event.fetchEngageStudent pid], .error e)
      | .ok (db1, ws) =>
        ([Event.fetchEngageStudent pid] ++ ws.map Event.dbWrite, .ok db1)
    else
      match updateStudent db sl se with
      | .error e => ([Event.fetchEngageStudent pid], .error e)
      | .ok (db1, ws) =>
        ([Event.fetchEngageStudent pid] ++ ws.map Event.dbWrite, .ok db1)

/-- The `RefreshStudents` iteration loop with its end-of-iteration
checkpoint: `select` on `ctx.Done()` versus `time.After(RequestTimeout)`.
`cancelAt = some k` means the token fires during the k-th checkpoint
(0-indexed); `none` means it never fires. -/
def refreshStudentsLoop (up : Int → Option Student) (purge : Bool) (cancelAt : Option Nat) :
    Nat → Nat → Int → DB → List Event × Except RunError DB
  | 0, _, _, db => ([], .ok db)
  | r + 1, i, pid, db =>
    let (ev1, res) := refreshIter up purge db pid
    match res with
    | .error e => (ev1, .error e)
    | .ok db1 =>
      if cancelAt = some i then
        (ev1 ++ [Event.ctxDone], .error (.ctxCanceled "refresh students: context canceled"))
      else
        let (ev2, res2) := refreshStudentsLoop up purge cancelAt r (i + 1) (pid + 1) db1
        (ev1 ++ [Event.pacingWait] ++ ev2, res2)

/-- `csb.RefreshStudents` request payload. -/
structure RefreshStudentsReq where
  startPID : Int
  n : Nat
  purge : Bool
deriving DecidableEq, Repr

/-- `(*StudentService).RefreshStudents` from part_002.  The whole loop runs
inside one transaction under `defer tx.Rollback()`; the source returns `nil`
WITHOUT calling `tx.Commit()`, so on success the transaction state is
discarded and the committed store is returned unchanged.  Returns the event
trace, the result, and the committed store. -/
def StudentService.RefreshStudents (up : Int → Option Student) (refresh : RefreshStudentsReq)
    (cancelAt : Option Nat) (db : DB) : List Event × Except RunError Unit × DB :=
  let (ev, res) := refreshStudentsLoop up refresh.purge cancelAt refresh.n 0 refresh.startPID db
  match res with
  | .ok _txState => (ev, .ok (), db)
  | .error e => (ev, .error e, db)

end Sqlite

namespace Sqlite

open Csb

/-! ## The mark service (http/student.go, sqlite mark part) -/

/-- `findMarks` (body elided in src/) restricted to the PID+periods filter
used here.  Modelled from the spec: the local store query returns the mark
rows matching the filter. -/
def findMarksFilter (db : DB) (pid : Int) (periods : List Period) : List Mark :=
  db.marks.filter (fun m => m.studentID = pid && periods.any (fun p => p = m.period))

/-- `findMarksByFullPeriod`: the PID filter with the single given period. -/
def findMarksByFullPeriod (db : DB) (pid : Int) (period : Period) : List Mark :=
  findMarksFilter db pid [period]

/-- `attachMarkSubject`: enrich the mark's subject by name, else by id, else
leave it. -/
def attachMarkSubject (db : DB) (mark : Mark) : Except RunError Mark :=
  if mark.subject.name ≠ "" then
    match findSubjectByName db mark.subject.name with
    | .error e => .error e
    | .ok subj => .ok { mark with subject := subj }
  else if mark.subject.id ≠ 0 then
    match findSubjectByID db mark.subject.id with
    | .error e => .error e
    | .ok subj => .ok { mark with subject := subj }
  else .ok mark

/-- The per-mark loop of `attachMarksSubjectsWithStudent`. -/
def attachMarksList (db : DB) : List Mark → Except RunError (List Mark)
  | [] => .ok []
  | m :: rest =>
    match attachMarkSubject db m with
    | .error e => .error e
    | .ok m1 =>
      match attachMarksList db rest with
      | .error e => .error e
      | .ok ms => .ok (m1 :: ms)

/-- `attachMarksSubjectsWithStudent`: look the student up once (`ENOTFOUND`
propagates), then attach each mark's subject.  (Setting the `Student`
back-pointer on each mark is not modelled.) -/
def attachMarksSubjectsWithStudent (db : DB) (pid : Int) (marks : List Mark) :
    Except RunError (List Mark) :=
  match findStudentByPID db pid with
  | .error e => .error e
  | .ok _student => attachMarksList db marks

/-- `createMark` from http/student.go (sqlite mark part): validate, then
insert the row.  The marks migration declares
`CHECK (percentage >= 0 AND percentage <= 100)`, modelled on the insert. -/
def createMark (db : DB) (mark : Mark) : Except RunError (DB × List Write) :=
  match markValidate mark with
  | .error e => .error e
  | .ok _ =>
    if mark.percentage < 0 ∨ 100 < mark.percentage then
      .error (.csbErr EINTERNAL "check constraint: marks.percentage")
    else
      .ok ({ db with marks := db.marks ++ [mark] },
           [.insertMark mark.studentID mark.subject.name])

/-- The insert loop of `createDiff`: the subject-name set is built once from
the local marks and does not grow as inserts happen. -/
def createDiffLoop (localNames : List String) :
    DB → List Mark → List Write → Except RunError (DB × List Write)
  | db, [], acc => .ok (db, acc)
  | db, m :: rest, acc =>
    if localNames.any (fun s => s = m.subject.name) then
      createDiffLoop localNames db rest acc
    else
      match createMark db m with
      | .error e => .error e
      | .ok (db1, ws) => createDiffLoop localNames db1 rest (acc ++ ws)

/-- `createDiff` from http/student.go: append-only shallow diff by subject
name. -/
def createDiff (db : DB) (localMarks engageMarks : List Mark) :
    Except RunError (DB × List Write) :=
  createDiffLoop (localMarks.map (fun m => m.subject.name)) db engageMarks []

/-- The mark service configuration and its collaborators.  `upMarks` stands
for `findMarksByFullPeriodEngage` (whose render fetch and
`GetMarksFromRender` parse errors are both swallowed by the source through a
shadowed `err`, so it always reports success); `buildPeriods` and
`periodFull` are the period collaborator.  Modelled from the spec: the
period service and `GetMarksFromRender` are not under src/; section 6 lists
`BuildPeriods` and the fullness predicate as external collaborators. -/
structure MarkSvc where
  fallback : Bool := false
  upMarks : Int → Period → List Mark := fun _ _ => []
  buildPeriods : Int → Int → Int → List Period := fun _ _ _ => []
  periodFull : Period → Bool := fun _ => false

/-- `findMarksByFullPeriodFallback` from http/student.go: local marks; when
the service's `fallback` flag is set, fetch upstream, append the diff, and
return the upstream list; otherwise return the local list with no upstream
call. -/
def findMarksByFullPeriodFallback (svc : MarkSvc) (db : DB) (pid : Int) (period : Period) :
    List Event × Except RunError (List Mark × DB) :=
  if svc.fallback then
    match createDiff db (findMarksByFullPeriod db pid period) (svc.upMarks pid period) with
    | .error e => ([Event.fetchEngageMarks pid period], .error e)
    | .ok (db1, ws) =>
      (Event.fetchEngageMarks pid period :: ws.map Event.dbWrite,
       .ok (svc.upMarks pid period, db1))
  else ([], .ok (findMarksByFullPeriod db pid period, db))

/-- `(*MarkService).FindMarksByPeriod` from http/student.go: branch on the
fullness predicate; the full branch may consult upstream through the
fallback helper, the non-full branch expands the period through the period
collaborator and queries ONLY the local store.  (In the source the non-full
branch assigns its query error to a shadowed `err`, so that error is
dropped; our local query is total, so nothing is lost.)  On success the
transaction is committed (`return marks, tx.Commit()`). -/
def MarkService.FindMarksByPeriod (svc : MarkSvc) (db : DB) (pid : Int) (period : Period) :
    List Event × Except RunError (List Mark) × DB :=
  if svc.periodFull period then
    match findMarksByFullPeriodFallback svc db pid period with
    | (evs, .error e) => (evs, .error e, db)
    | (evs, .ok (marks, db1)) =>
      match attachMarksSubjectsWithStudent db1 pid marks with
      | .error e => (evs, .error e, db)
      | .ok marks1 => (evs, .ok marks1, db1)
  else
    match attachMarksSubjectsWithStudent db pid
        (findMarksFilter db pid (svc.buildPeriods pid period.academicYear period.term)) with
    | .error e => ([], .error e, db)
    | .ok marks1 => ([], .ok marks1, db)

/-- One iteration of the `RefreshMarks` period loop: local full-period
marks, attach; upstream full-period marks, attach; append-only diff. -/
def refreshMarksIter (svc : MarkSvc) (db : DB) (pid : Int) (period : Period) :
    List Event × Except RunError DB :=
  match attachMarksSubjectsWithStudent db pid (findMarksByFullPeriod db pid period) with
  | .error e => ([], .error e)
  | .ok marksLocal1 =>
    match attachMarksSubjectsWithStudent db pid (svc.upMarks pid period) with
    | .error e => ([Event.fetchEngageMarks pid period], .error e)
    | .ok marksEngage1 =>
      match createDiff db marksLocal1 marksEngage1 with
      | .error e => ([Event.fetchEngageMarks pid period], .error e)
      | .ok (db1, ws) =>
        (Event.fetchEngageMarks pid period :: ws.map Event.dbWrite, .ok db1)

/-- The `RefreshMarks` period loop with the same end-of-iteration
`select` checkpoint as the student loop: `ctx.Done()` versus
`time.After(engage.RequestTimeout)`, then `periods = periods[1:]`. -/
def refreshMarksLoop (svc : MarkSvc) (pid : Int) (cancelAt : Option Nat) :
    List Period → Nat → DB → List Event × Except RunError DB
  | [], _, db => ([], .ok db)
  | period :: rest, i, db =>
    let (ev1, res) := refreshMarksIter svc db pid period
    match res with
    | .error e => (ev1, .error e)
    | .ok db1 =>
      if cancelAt = some i then
        (ev1 ++ [Event.ctxDone], .error (.ctxCanceled "context canceled"))
      else
        let (ev2, res2) := refreshMarksLoop svc pid cancelAt rest (i + 1) db1
        (ev1 ++ [Event.pacingWait] ++ ev2, res2)

/-- `(*MarkService).RefreshMarks` from http/student.go: check the student
exists locally, expand the range into `periods` (the `PeriodRange`
collaborator's output is taken as a parameter), run the loop.  Like
`RefreshStudents`, the source returns `nil` WITHOUT `tx.Commit()` under
`defer tx.Rollback()`, so the committed store is returned unchanged. -/
def MarkService.RefreshMarks (svc : MarkSvc) (periods : List Period) (pid : Int)
    (cancelAt : Option Nat) (db : DB) : List Event × Except RunError Unit × DB :=
  match findStudentByPID db pid with
  | .error e => ([], .error e, db)
  | .ok _ =>
    let (ev, res) := refreshMarksLoop svc pid cancelAt periods 0 db
    match res with
    | .ok _txState => (ev, .ok (), db)
    | .error e => (ev, .error e, db)

end Sqlite

namespace HttpApi

/-! ## The cancellation-handle map (http package)

The server keeps `cancelTransactions map[int64]context.CancelFunc` guarded
by `transactionMu sync.Mutex`.  Each entry point is modelled by the sequence
of map mutations it performs, each tagged with whether `transactionMu` is
held at that program point — read directly off the source. -/

/-- One mutation of `s.cancelTransactions`, tagged with whether
`s.transactionMu` is held when it executes. -/
structure MapMutation where
  isInsert : Bool
  id : Int
  underMutex : Bool
deriving DecidableEq, Repr

/-- The cancellation-handle map (ids present). -/
structure ServerState where
  cancelTransactions : List Int := []
deriving DecidableEq, Repr

/-- `pushTransaction` from http/student.go: builds the transaction,
publishes it to the work queue, then executes
`s.cancelTransactions[transaction.Id] = cancel` with NO lock on
`s.transactionMu` (its comment asserts the caller need not hold a mutex). -/
def pushTransaction (st : ServerState) (newId : Int) : ServerState × List MapMutation :=
  ({ st with cancelTransactions := newId :: st.cancelTransactions },
   [{ isInsert := true, id := newId, underMutex := false }])

/-- `handleRefreshStudent` from http/student.go (lines 96-117, the direct
variant): decode, publish, then `s.cancelTransactions[transaction.Id] =
cancel`, again with no lock held. -/
def handleRefreshStudent (st : ServerState) (newId : Int) : ServerState × List MapMutation :=
  ({ st with cancelTransactions := newId :: st.cancelTransactions },
   [{ isInsert := true, id := newId, underMutex := false }])

/-- `handleCancelTransaction` from http/student.go: takes
`s.transactionMu.Lock()` (released by `defer`), looks the id up, and — when
found — calls the cancel func and deletes the entry while holding the
mutex.  The `Bool` is whether the id was found (404 otherwise). -/
def handleCancelTransaction (st : ServerState) (id : Int) :
    ServerState × List MapMutation × Bool :=
  if st.cancelTransactions.any (fun x => x = id) then
    ({ st with cancelTransactions := st.cancelTransactions.filter (fun x => x ≠ id) },
     [{ isInsert := false, id := id, underMutex := true }], true)
  else (st, [], false)

end HttpApi

deriving instance DecidableEq for Except

/-! ## Concrete fixtures used by the claim theorems -/

namespace Fixtures

open Csb Sqlite

/-- Upstream oracle of the C1 scenario: pid 100 absent, pid 101 present and
attending, pid 102 present and not attending. -/
def upstreamC1 : Int → Option Student := fun p =>
  if p = 101 then some { pid := 101, name := "A", currentYear := 7, attendsSchool := true }
  else if p = 102 then some { pid := 102, name := "B", attendsSchool := false }
  else none

/-- Local store of the C1 scenario: only pid 102 present. -/
def dbC1 : DB := { students := [{ pid := 102, name := "B", attendsSchool := true }] }

def reqC1 : RefreshStudentsReq := { startPID := 100, n := 3, purge := true }

/-- Upstream oracle of the C6 scenario: pid 0 present and attending. -/
def upstreamC6 : Int → Option Student := fun p =>
  if p = 0 then some { pid := 0, name := "Z", attendsSchool := true } else none

def reqC6 : RefreshStudentsReq := { startPID := 0, n := 1, purge := false }

def subjA : Subject := { id := 1, engageCode := "A", name := "Algebra" }

def subjB : Subject := { id := 2, engageCode := "B", name := "Biology" }

/-- Local store of the C2 input: the student takes subject A; both A and B
exist in the subjects table. -/
def dbC2 : DB :=
  { students := [{ pid := 1, name := "S", subjects := [subjA] }],
    subjectRows := [subjA, subjB] }

def prevC2 : Student := { pid := 1, name := "S", subjects := [subjA] }

/-- Upstream record of the C2 input: same number of subjects as the local
record, but subject B instead of subject A. -/
def nextC2 : Student :=
  { pid := 1, name := "S", attendsSchool := true, currentYear := 9, subjects := [subjB] }

/-- Render buffer holding two concatenated mark records (percentage token,
comma-delimited subject, teacher before an angle bracket), as in the C3
resumption scenario. -/
def bufC3 : List Char := ("\\t42, Maths , Mr A<x\\t57, Physics , Mr B<y").data

/-- Whether an event is an executed local write. -/
def isDbWrite : Event → Bool := fun e =>
  match e with
  | .dbWrite _ => true
  | _ => false

/-- Period fixture for the C5 and C8 witnesses. -/
def perW5 : Period := { academicYear := 2024, term := 1, importance := "End" }

def perW8b : Period := { academicYear := 2024, term := 2, importance := "End" }

/-- A locally stored mark for pid 7 (subject left to be attached). -/
def mW5 : Mark := { studentID := 7, percentage := 55, teacher := "T", period := perW5 }

/-- Local store with student 7 and one of their marks. -/
def dbW5 : DB := { students := [{ pid := 7, name := "P" }], marks := [mW5] }

/-- Mark service whose fullness predicate is always false (C5 witness). -/
def svcW5a : MarkSvc :=
  { periodFull := fun _ => false, buildPeriods := fun _ _ _ => [perW5] }

/-- Mark service with fallback on and fullness always true (C5 witness). -/
def svcW5b : MarkSvc := { fallback := true, periodFull := fun _ => true }

/-- Out-of-range mark for the C7 witness. -/
def badMarkC7 : Mark := { studentID := 7, percentage := 150 }

/-- In-range mark for the C7 witness. -/
def okMarkC7 : Mark := { studentID := 7, percentage := 55, subject := subjA, teacher := "T" }

/-- Upstream oracle with every pid absent (C8 witness). -/
def upW8 : Int → Option Student := fun _ => none

/-- Default mark service (no fallback, empty collaborators) for the C8
witness. -/
def svcW8 : MarkSvc := {}

end Fixtures

/-! ## Claim theorems -/

open Csb Sqlite Engage HttpApi Fixtures

/-- C1: in the scenario `RefreshStudents(startPid=100, n=3, purge=true)` with
pid 100 upstream-absent/local-absent, pid 101 upstream-present-attending/
local-absent, pid 102 upstream-present-not-attending/local-present, the
per-pid decision table is honoured INSIDE the transaction (first conjunct:
pid 101 created, pid 102 deleted), but the source returns without
`tx.Commit()` under `defer tx.Rollback()`, so the committed local state is
unchanged: pid 101 is never created and pid 102 never deleted (remaining
conjuncts). -/
theorem c1_refresh_students_scenario_rolled_back :
    refreshStudentsLoop upstreamC1 true none 3 0 100 dbC1 =
      ([Event.fetchEngageStudent 100, Event.pacingWait,
        Event.fetchEngageStudent 101, Event.dbWrite (Write.insertStudent 101), Event.pacingWait,
        Event.fetchEngageStudent 102, Event.dbWrite (Write.deleteStudentRow 102), Event.pacingWait],
       .ok { students := [{ pid := 101, name := "A", currentYear := 7, attendsSchool := true }] })
    ∧ (StudentService.RefreshStudents upstreamC1 reqC1 none dbC1).2.1 = .ok ()
    ∧ (StudentService.RefreshStudents upstreamC1 reqC1 none dbC1).2.2 = dbC1
    ∧ findStudentsByPID dbC1 101 = []
    ∧ findStudentsByPID dbC1 102 ≠ [] := by
  decide

/-- C2: with an existing local student whose subject list has the same
length as — but different members from — the upstream record, `updateStudent`
attaches nothing (the diff is computed only when the list lengths differ):
the upstream subject B has an engage code absent from the local list, yet
the only executed write is the student-row update and the local subject
list stays `[subjA]`. -/
theorem c2_update_student_equal_length_diff_skipped :
    updateStudent dbC2 prevC2 nextC2 =
      .ok ({ students := [{ pid := 1, name := "S", currentYear := 9,
                            attendsSchool := true, subjects := [subjA] }],
             subjectRows := [subjA, subjB] },
           [Write.updateStudentRow 1])
    ∧ subjB ∈ nextC2.subjects
    ∧ prevC2.subjects.all (fun p => p.engageCode ≠ subjB.engageCode) := by
  decide

/-- C3: on a buffer holding two well-formed concatenated mark records,
`GetMarkFromRender` does not return the first mark with a resume offset: it
returns a `strconv.Atoi` error, because the percentage regexp matches the
two characters backslash-t followed by digits while `strings.TrimPrefix`
strips a real tab character, so the conversion always sees the backslash. -/
theorem c3_get_mark_from_render_two_records_errors :
    GetMarkFromRender bufC3 =
      some (.error (.goErr "strconv.Atoi: parsing: invalid syntax")) := by
  decide

/-- C4 counterexample: a marksheet-render response with HTTP status 200
whose body is the empty-data-array envelope (8 bytes, not the magic 9200
content length) is returned as a SUCCESS carrying the raw bytes — not as a
`NotFound` error, contradicting the claim for the render fetch. -/
theorem c4_render_fetch_empty_array_not_notfound :
    Client.GetMarksheetRender
        { status := 200, contentLength := 8, body := ("\x7b\"d\":[]\x7d").data } =
      .ok (("\x7b\"d\":[]\x7d").data)
    ∧ isNotFoundErr (Client.GetMarksheetRender
        { status := 200, contentLength := 8, body := ("\x7b\"d\":[]\x7d").data }) = false := by
  decide

/-- C6: running `RefreshStudents` twice with identical upstream state from
an empty local store: the first run succeeds but commits nothing (no
`tx.Commit()`), so the second run is byte-for-byte identical to the first —
including re-executing its insert write — rather than performing no
additional local writes. -/
theorem c6_second_run_repeats_writes :
    (StudentService.RefreshStudents upstreamC6 reqC6 none {}).2.1 = .ok ()
    ∧ (StudentService.RefreshStudents upstreamC6 reqC6 none {}).2.2 = ({} : DB)
    ∧ StudentService.RefreshStudents upstreamC6 reqC6 none
        (StudentService.RefreshStudents upstreamC6 reqC6 none {}).2.2 =
        StudentService.RefreshStudents upstreamC6 reqC6 none {}
    ∧ ((StudentService.RefreshStudents upstreamC6 reqC6 none {}).1.filter isDbWrite) =
        [Event.dbWrite (Write.insertStudent 0)] := by
  decide

/-- C9: the mutation tables read off the three entry points: both publish
paths (`pushTransaction` and the direct `handleRefreshStudent`) insert into
the cancellation-handle map WITHOUT holding `transactionMu`, while the
cancel path deletes under the mutex — so not every mutation of the shared
map is performed under the single guarding mutex. -/
theorem c9_unguarded_publish_path_write :
    (pushTransaction {} 5).2 = [{ isInsert := true, id := 5, underMutex := false }]
    ∧ (handleRefreshStudent {} 5).2 = [{ isInsert := true, id := 5, underMutex := false }]
    ∧ (handleCancelTransaction { cancelTransactions := [5] } 5).2.1 =
        [{ isInsert := false, id := 5, underMutex := true }]
    ∧ ((pushTransaction {} 5).2.all (fun m => m.underMutex)) = false := by
  decide

/-- C10 counterexample: `getTeacherName` on the three-byte buffer "a,<"
finds the angle bracket and the comma before it and then executes
`string(buf[y+2 : y])`, a slice whose low bound exceeds its high bound —
an out-of-bounds slice (run-time panic), contradicting the claim that all
slice index arithmetic in the helpers stays within bounds. -/
theorem c10_get_teacher_name_out_of_bounds_slice :
    getTeacherName ['a', ',', '<'] = none := by
  decide

/-! ## Parser totality lemmas (for C10) -/

theorem percentMatchLen_spec {l : List Char} {k : Nat} (h : percentMatchLen l = some k) :
    3 ≤ k ∧ k ≤ l.length ∧ ∃ rest, l = '\\' :: 't' :: rest := by
  match l with
  | [] => simp [percentMatchLen] at h
  | [c] => simp [percentMatchLen] at h
  | c1 :: c2 :: rest =>
    simp only [percentMatchLen] at h
    by_cases hc : c1 = '\\' ∧ c2 = 't'
    · rw [if_pos hc] at h
      by_cases hz : (rest.takeWhile Char.isDigit).length = 0
      · rw [if_pos hz] at h
        exact absurd h (by simp)
      · rw [if_neg hz] at h
        have hk : 2 + (rest.takeWhile Char.isDigit).length = k := by
          injection h
        have hlen : (rest.takeWhile Char.isDigit).length ≤ rest.length :=
          (List.takeWhile_prefix Char.isDigit).length_le
        refine ⟨by omega, by simp; omega, rest, ?_⟩
        rw [hc.1, hc.2]
    · rw [if_neg hc] at h
      exact absurd h (by simp)

theorem findPercentFrom_spec (l : List Char) : ∀ (i s e : Nat),
    findPercentFrom l i = some (s, e) →
    i ≤ s ∧ percentMatchLen (l.drop (s - i)) = some (e - s) := by
  induction l with
  | nil => intro i s e h; simp [findPercentFrom] at h
  | cons c rest ih =>
    intro i s e h
    unfold findPercentFrom at h
    cases hm : percentMatchLen (c :: rest) with
    | some len =>
      rw [hm] at h
      rw [Option.some.injEq, Prod.mk.injEq] at h
      obtain ⟨h1, h2⟩ := h
      subst h1
      subst h2
      refine ⟨le_refl _, ?_⟩
      simp [hm]
    | none =>
      rw [hm] at h
      obtain ⟨h1, h2⟩ := ih (i + 1) s e h
      refine ⟨by omega, ?_⟩
      have hsi : s - i = (s - (i + 1)) + 1 := by omega
      rw [hsi]
      simpa using h2

/-- C10 (amended): for every input buffer `GetMarkFromRender` terminates
normally and never panics, returning an error (in fact it ALWAYS returns an
error: when the percentage pattern — a literal backslash-t plus digits — is
found, `strings.TrimPrefix` with a real tab leaves the backslash in place
and the integer conversion fails, so the subject/teacher extractors, whose
slice arithmetic is out of bounds when their boundaries are found, are
never reached). -/
theorem c10_get_mark_from_render_total_amended (renderBuf : List Char) :
    ∃ err, GetMarkFromRender renderBuf = some (Except.error err) := by
  cases hf : findPercent renderBuf with
  | none =>
    exact ⟨_, by unfold GetMarkFromRender; rw [hf]⟩
  | some pr =>
    obtain ⟨s, e⟩ := pr
    have hf0 : findPercentFrom renderBuf 0 = some (s, e) := hf
    obtain ⟨-, hm⟩ := findPercentFrom_spec renderBuf 0 s e hf0
    rw [Nat.sub_zero] at hm
    obtain ⟨hk3, hkle, rest, hrest⟩ := percentMatchLen_spec hm
    rw [hrest] at hkle
    have hdl : (renderBuf.drop s).length = renderBuf.length - s := by simp
    rw [hrest] at hdl
    simp at hdl hkle
    have hslen : s < renderBuf.length := by
      by_contra hge
      push_neg at hge
      rw [List.drop_eq_nil_of_le hge] at hrest
      exact absurd hrest (by simp)
    have hesle : e ≤ renderBuf.length := by omega
    obtain ⟨k, hk⟩ : ∃ k, e - s = k + 3 := ⟨e - s - 3, by omega⟩
    have hcond : (0 : Int) ≤ (s : Int) ∧ (s : Int) ≤ (e : Int) ∧
        (e : Int) ≤ ((renderBuf.length : Nat) : Int) := by
          exact ⟨by omega, by omega, by omega⟩
    have htn1 : ((s : Int)).toNat = s := by omega
    have htn2 : (((e : Int) - (s : Int))).toNat = e - s := by omega
    have hslice : goSliceRange renderBuf (s : Int) (e : Int) =
        some ('\\' :: (('t' :: rest).take (k + 2))) := by
      unfold goSliceRange
      rw [if_pos hcond, htn1, htn2, hrest, hk, List.take_succ_cons]
    refine ⟨ParseErr.goErr "strconv.Atoi: parsing: invalid syntax", ?_⟩
    unfold GetMarkFromRender
    rw [hf]
    simp only [hslice]
    rfl

/-! ## C4: the empty-payload special case -/

theorem post_200_decoded (resp : Engage.PostResponse) (r : Engage.EngageResponse)
    (h200 : resp.status = 200) (hdec : resp.decoded = some r) :
    Engage.Client.post resp =
      (if r.d.length = 0 then .error ⟨ENOTFOUND, "engage: invalid PID"⟩ else .ok r) := by
  unfold Engage.Client.post
  rw [if_neg (by rw [h200]; simp), hdec]

/-- C4 (amended): every call routed through the shared `post` envelope that
comes back with HTTP 200 and an empty decoded data array yields exactly a
`NotFound` csb error (never a transport or Internal one), and a 200
response with at least one data row is returned as success, so it never
yields `NotFound` from this check.  The marksheet render fetch, however,
does NOT go through `post` and performs no data-array check: with status
200 it returns the raw body as success unless the content length is
exactly 9200 bytes, which is its only `NotFound` special case. -/
theorem c4_empty_payload_notfound_amended :
    (∀ (resp : Engage.PostResponse) (r : Engage.EngageResponse),
       resp.status = 200 → resp.decoded = some r → r.d = [] →
       Engage.Client.post resp = .error ⟨ENOTFOUND, "engage: invalid PID"⟩)
    ∧ (∀ (resp : Engage.PostResponse) (r : Engage.EngageResponse),
       resp.status = 200 → resp.decoded = some r → r.d ≠ [] →
       Engage.Client.post resp = .ok r)
    ∧ (∀ (resp : Engage.RenderResponse),
       resp.status = 200 → resp.contentLength ≠ 9200 →
       Engage.Client.GetMarksheetRender resp = .ok resp.body)
    ∧ (∀ (resp : Engage.RenderResponse),
       resp.status = 200 → resp.contentLength = 9200 →
       Engage.Client.GetMarksheetRender resp = .error ⟨ENOTFOUND, "couldnt find pupil"⟩) := by
  refine ⟨?_, ?_, ?_, ?_⟩
  · intro resp r h200 hdec hnil
    rw [post_200_decoded resp r h200 hdec, if_pos (by simp [hnil])]
  · intro resp r h200 hdec hne
    rw [post_200_decoded resp r h200 hdec, if_neg (by simpa using hne)]
  · intro resp h200 hlen
    unfold Engage.Client.GetMarksheetRender
    rw [if_neg (by rw [h200]; simp), if_neg hlen]
  · intro resp h200 hlen
    unfold Engage.Client.GetMarksheetRender
    rw [if_neg (by rw [h200]; simp), if_pos hlen]

/-- C4 witness: the four cases of the amended statement at concrete
responses. -/
theorem c4_empty_payload_notfound_witness :
    Engage.Client.post { status := 200, decoded := some {} } =
      .error ⟨ENOTFOUND, "engage: invalid PID"⟩
    ∧ Engage.Client.post { status := 200, decoded := some { d := [{}] } } =
      .ok { d := [{}] }
    ∧ Engage.Client.GetMarksheetRender { status := 200, contentLength := 8, body := ['d'] } =
      .ok ['d']
    ∧ Engage.Client.GetMarksheetRender { status := 200, contentLength := 9200 } =
      .error ⟨ENOTFOUND, "couldnt find pupil"⟩ :=
  ⟨c4_empty_payload_notfound_amended.1 _ _ rfl rfl rfl,
   c4_empty_payload_notfound_amended.2.1 _ _ rfl rfl (by decide),
   c4_empty_payload_notfound_amended.2.2.1 _ rfl (by decide),
   c4_empty_payload_notfound_amended.2.2.2 _ rfl rfl⟩

/-! ## C7: the percentage range invariant -/

theorem createMark_eq (db : DB) (mark : Mark) :
    createMark db mark =
      if mark.percentage < 0 ∨ 100 < mark.percentage then
        .error (.csbErr EINVALID "mark percentage out of range")
      else
        .ok ({ db with marks := db.marks ++ [mark] },
             [.insertMark mark.studentID mark.subject.name]) := by
  unfold createMark markValidate
  by_cases hr : mark.percentage < 0 ∨ 100 < mark.percentage
  · simp only [if_pos hr]
  · simp only [if_neg hr]

theorem createMark_ok {db : DB} {mark : Mark} {db1 : DB} {ws : List Write}
    (h : createMark db mark = .ok (db1, ws)) :
    db1.marks = db.marks ++ [mark] ∧ 0 ≤ mark.percentage ∧ mark.percentage ≤ 100 := by
  rw [createMark_eq] at h
  by_cases hr : mark.percentage < 0 ∨ 100 < mark.percentage
  · rw [if_pos hr] at h
    exact Except.noConfusion h
  · rw [if_neg hr] at h
    rw [Except.ok.injEq, Prod.mk.injEq] at h
    obtain ⟨h1, -⟩ := h
    subst h1
    push_neg at hr
    exact ⟨rfl, by omega, by omega⟩

theorem createDiffLoop_inv (names : List String) : ∀ (em : List Mark) (db : DB)
    (acc : List Write) (db1 : DB) (ws : List Write),
    (∀ m ∈ db.marks, 0 ≤ m.percentage ∧ m.percentage ≤ 100) →
    createDiffLoop names db em acc = .ok (db1, ws) →
    ∀ m ∈ db1.marks, 0 ≤ m.percentage ∧ m.percentage ≤ 100 := by
  intro em
  induction em with
  | nil =>
    intro db acc db1 ws hinv h
    unfold createDiffLoop at h
    rw [Except.ok.injEq, Prod.mk.injEq] at h
    obtain ⟨h1, -⟩ := h
    subst h1
    exact hinv
  | cons m rest ih =>
    intro db acc db1 ws hinv h
    unfold createDiffLoop at h
    split at h
    · exact ih db acc db1 ws hinv h
    · split at h
      · exact Except.noConfusion h
      · rename_i p heq
        obtain ⟨hmarks, hlo, hhi⟩ := createMark_ok heq
        refine ih _ _ db1 ws ?_ h
        intro m1 hm1
        rw [hmarks] at hm1
        rcases List.mem_append.mp hm1 with hold | hnew
        · exact hinv m1 hold
        · rw [List.mem_singleton.mp hnew]
          exact ⟨hlo, hhi⟩

/-- C7: the percentage range invariant.  First conjunct: a mark whose
percentage lies outside [0,100] is rejected by the create path with an
error before any row is written (`markValidate`, modelled from the spec,
fires before the insert).  Second conjunct: the append-only diff — the only
code path that inserts marks — preserves the invariant that every stored
percentage lies within [0,100]. -/
theorem c7_percentage_range_enforced :
    (∀ (db : DB) (mark : Mark), mark.percentage < 0 ∨ 100 < mark.percentage →
       createMark db mark = .error (.csbErr EINVALID "mark percentage out of range"))
    ∧ (∀ (db : DB) (localMarks engageMarks : List Mark) (db1 : DB) (ws : List Write),
       (∀ m ∈ db.marks, 0 ≤ m.percentage ∧ m.percentage ≤ 100) →
       createDiff db localMarks engageMarks = .ok (db1, ws) →
       ∀ m ∈ db1.marks, 0 ≤ m.percentage ∧ m.percentage ≤ 100) := by
  constructor
  · intro db mark hr
    rw [createMark_eq, if_pos hr]
  · intro db lm em db1 ws hinv h
    unfold createDiff at h
    exact createDiffLoop_inv (lm.map (fun m => m.subject.name)) em db [] db1 ws hinv h

/-- C7 witness: an out-of-range mark is rejected; a concrete diff run leaves
only in-range percentages stored. -/
theorem c7_percentage_range_witness :
    createMark {} badMarkC7 = .error (.csbErr EINVALID "mark percentage out of range")
    ∧ (0 ≤ okMarkC7.percentage ∧ okMarkC7.percentage ≤ 100) :=
  ⟨c7_percentage_range_enforced.1 {} badMarkC7 (by decide),
   c7_percentage_range_enforced.2 {} [] [okMarkC7] { marks := [okMarkC7] }
     [.insertMark 7 "Algebra"] (fun m hm => absurd hm (List.not_mem_nil m))
     (by decide) okMarkC7 (by decide)⟩

/-! ## C5: non-full periods never consult upstream -/

theorem attachMarkSubject_core {db : DB} {x y : Mark}
    (h : attachMarkSubject db x = .ok y) :
    y.studentID = x.studentID ∧ y.percentage = x.percentage
    ∧ y.teacher = x.teacher ∧ y.period = x.period := by
  unfold attachMarkSubject at h
  split at h
  · split at h
    · exact Except.noConfusion h
    · rw [Except.ok.injEq] at h
      subst h
      exact ⟨rfl, rfl, rfl, rfl⟩
  · split at h
    · split at h
      · exact Except.noConfusion h
      · rw [Except.ok.injEq] at h
        subst h
        exact ⟨rfl, rfl, rfl, rfl⟩
    · rw [Except.ok.injEq] at h
      subst h
      exact ⟨rfl, rfl, rfl, rfl⟩

theorem attachMarksList_mem {db : DB} : ∀ {l l' : List Mark},
    attachMarksList db l = .ok l' →
    ∀ y ∈ l', ∃ x ∈ l, attachMarkSubject db x = .ok y := by
  intro l
  induction l with
  | nil =>
    intro l' h y hy
    unfold attachMarksList at h
    rw [Except.ok.injEq] at h
    subst h
    exact absurd hy (List.not_mem_nil y)
  | cons m rest ih =>
    intro l' h y hy
    unfold attachMarksList at h
    cases ha : attachMarkSubject db m with
    | error e =>
      rw [ha] at h
      have h' : (Except.error e : Except RunError (List Mark)) = .ok l' := h
      exact Except.noConfusion h'
    | ok m1 =>
      rw [ha] at h
      cases hrest : attachMarksList db rest with
      | error e =>
        rw [hrest] at h
        have h' : (Except.error e : Except RunError (List Mark)) = .ok l' := h
        exact Except.noConfusion h'
      | ok ms =>
        rw [hrest] at h
        have h' : Except.ok (m1 :: ms) = (Except.ok l' : Except RunError (List Mark)) := h
        rw [Except.ok.injEq] at h'
        subst h'
        rcases List.mem_cons.mp hy with hy1 | hy2
        · subst hy1
          exact ⟨m, List.mem_cons_self m rest, ha⟩
        · obtain ⟨x, hx, hax⟩ := ih hrest y hy2
          exact ⟨x, List.mem_cons_of_mem m hx, hax⟩

theorem findMarksByPeriod_trace_non_full {svc : MarkSvc} {db : DB} {pid : Int}
    {period : Period} (hfull : svc.periodFull period = false) :
    (MarkService.FindMarksByPeriod svc db pid period).1 = [] := by
  unfold MarkService.FindMarksByPeriod
  rw [if_neg (by simp [hfull])]
  cases hattach : attachMarksSubjectsWithStudent db pid
      (findMarksFilter db pid (svc.buildPeriods pid period.academicYear period.term)) <;>
    rfl

theorem findMarksByPeriod_trace_no_fallback {svc : MarkSvc} {db : DB} {pid : Int}
    {period : Period} (hfb : svc.fallback = false) :
    (MarkService.FindMarksByPeriod svc db pid period).1 = [] := by
  unfold MarkService.FindMarksByPeriod
  by_cases hfull : svc.periodFull period = true
  · rw [if_pos hfull]
    unfold findMarksByFullPeriodFallback
    rw [if_neg (by simp [hfb])]
    show (match attachMarksSubjectsWithStudent db pid (findMarksByFullPeriod db pid period) with
          | Except.error e => (([] : List Event), Except.error e, db)
          | Except.ok marks1 => ([], Except.ok marks1, db)).1 = []
    cases hattach : attachMarksSubjectsWithStudent db pid
        (findMarksByFullPeriod db pid period) <;>
      rfl
  · rw [if_neg hfull]
    cases hattach : attachMarksSubjectsWithStudent db pid
        (findMarksFilter db pid (svc.buildPeriods pid period.academicYear period.term)) <;>
      rfl

/-- C5: when the fullness predicate of the period is false,
`FindMarksByPeriod` makes no upstream call at all (empty event trace) and
every mark it returns originates from a row of the local store (same
student, percentage, teacher and period); and in general an upstream fetch
event can appear in its trace only when the period is full AND the
service's fallback flag is set. -/
theorem c5_find_marks_by_period_non_full_local_only :
    (∀ (svc : MarkSvc) (db : DB) (pid : Int) (period : Period),
       svc.periodFull period = false →
       (MarkService.FindMarksByPeriod svc db pid period).1 = []
       ∧ ∀ (marks : List Mark),
           (MarkService.FindMarksByPeriod svc db pid period).2.1 = .ok marks →
           ∀ m ∈ marks, ∃ m0 ∈ db.marks,
             m.studentID = m0.studentID ∧ m.percentage = m0.percentage
             ∧ m.teacher = m0.teacher ∧ m.period = m0.period)
    ∧ (∀ (svc : MarkSvc) (db : DB) (pid : Int) (period : Period) (p : Int) (q : Period),
       Event.fetchEngageMarks p q ∈ (MarkService.FindMarksByPeriod svc db pid period).1 →
       svc.periodFull period = true ∧ svc.fallback = true) := by
  constructor
  · intro svc db pid period hfull
    refine ⟨findMarksByPeriod_trace_non_full hfull, ?_⟩
    intro marks hok m hm
    unfold MarkService.FindMarksByPeriod at hok
    rw [if_neg (by simp [hfull])] at hok
    cases hattach : attachMarksSubjectsWithStudent db pid
        (findMarksFilter db pid (svc.buildPeriods pid period.academicYear period.term)) with
    | error e =>
      rw [hattach] at hok
      have hok' : (Except.error e : Except RunError (List Mark)) = .ok marks := hok
      exact Except.noConfusion hok'
    | ok marks1 =>
      rw [hattach] at hok
      have hok' : Except.ok marks1 = (Except.ok marks : Except RunError (List Mark)) := hok
      rw [Except.ok.injEq] at hok'
      subst hok'
      unfold attachMarksSubjectsWithStudent at hattach
      split at hattach
      · exact Except.noConfusion hattach
      · obtain ⟨x, hx, hax⟩ := attachMarksList_mem hattach m hm
        have hx' : x ∈ db.marks.filter (fun mk =>
            mk.studentID = pid && (svc.buildPeriods pid period.academicYear period.term).any
              (fun p => p = mk.period)) := hx
        obtain ⟨c1, c2, c3, c4⟩ := attachMarkSubject_core hax
        exact ⟨x, (List.mem_filter.mp hx').1, c1, c2, c3, c4⟩
  · intro svc db pid period p q hmem
    by_cases hfull : svc.periodFull period = true
    · by_cases hfb : svc.fallback = true
      · exact ⟨hfull, hfb⟩
      · have hfb' : svc.fallback = false := by
          revert hfb
          cases svc.fallback <;> simp
        rw [findMarksByPeriod_trace_no_fallback hfb'] at hmem
        exact absurd hmem (List.not_mem_nil _)
    · have hfull' : svc.periodFull period = false := by
        revert hfull
        cases svc.periodFull period <;> simp
      rw [findMarksByPeriod_trace_non_full hfull'] at hmem
      exact absurd hmem (List.not_mem_nil _)

/-- C5 witness: for the concrete always-partial service the trace is empty
and the returned mark comes from the local store; and a concrete
full-period fallback run that does fetch upstream has the fullness
predicate and the fallback flag both set. -/
theorem c5_find_marks_by_period_witness :
    (MarkService.FindMarksByPeriod svcW5a dbW5 7 perW5).1 = []
    ∧ (∃ m0 ∈ dbW5.marks,
        mW5.studentID = m0.studentID ∧ mW5.percentage = m0.percentage
        ∧ mW5.teacher = m0.teacher ∧ mW5.period = m0.period)
    ∧ svcW5b.periodFull perW5 = true ∧ svcW5b.fallback = true := by
  refine ⟨(c5_find_marks_by_period_non_full_local_only.1 svcW5a dbW5 7 perW5 rfl).1,
    (c5_find_marks_by_period_non_full_local_only.1 svcW5a dbW5 7 perW5 rfl).2
      [mW5] (by decide) mW5 (by decide),
    c5_find_marks_by_period_non_full_local_only.2 svcW5b dbW5 7 perW5 7 perW5 (by decide)⟩

/-! ## C8: pacing and cancellation checkpoints -/

theorem no_wait_write_events {hd : Event} {ws : List Write}
    (hhd : hd ≠ Event.pacingWait) :
    ∀ e ∈ hd :: ws.map Event.dbWrite, e ≠ Event.pacingWait := by
  intro e he
  rcases List.mem_cons.mp he with h | h
  · rw [h]; exact hhd
  · obtain ⟨w, -, hw⟩ := List.mem_map.mp h
    rw [← hw]
    exact fun hc => Event.noConfusion hc

theorem no_wait_singleton {hd : Event} (hhd : hd ≠ Event.pacingWait) :
    ∀ e ∈ [hd], e ≠ Event.pacingWait := by
  intro e he
  rw [List.mem_singleton.mp he]
  exact hhd

theorem no_wait_fetch_append {hd : Event} {ws : List Write}
    (hhd : hd ≠ Event.pacingWait) :
    ∀ e ∈ [hd] ++ ws.map Event.dbWrite, e ≠ Event.pacingWait := by
  intro e he
  rcases List.mem_append.mp he with h | h
  · rw [List.mem_singleton.mp h]; exact hhd
  · obtain ⟨w, -, hw⟩ := List.mem_map.mp h
    rw [← hw]
    exact fun hc => Event.noConfusion hc

theorem refreshIter_no_wait {up : Int → Option Student} {purge : Bool} {db : DB} {pid : Int}
    {t : List Event} {res : Except RunError DB}
    (h : refreshIter up purge db pid = (t, res)) :
    ∀ e ∈ t, e ≠ Event.pacingWait := by
  unfold refreshIter at h
  split at h <;> (try split at h) <;> (try split at h) <;>
    (rw [Prod.mk.injEq] at h
     obtain ⟨h1, -⟩ := h
     subst h1
     first
       | exact no_wait_fetch_append (by simp)
       | exact no_wait_singleton (by simp))

theorem refreshMarksIter_no_wait {svc : MarkSvc} {db : DB} {pid : Int} {period : Period}
    {t : List Event} {res : Except RunError DB}
    (h : refreshMarksIter svc db pid period = (t, res)) :
    ∀ e ∈ t, e ≠ Event.pacingWait := by
  unfold refreshMarksIter at h
  split at h <;> (try split at h) <;> (try split at h) <;>
    (rw [Prod.mk.injEq] at h
     obtain ⟨h1, -⟩ := h
     subst h1
     first
       | exact no_wait_write_events (by simp)
       | exact no_wait_singleton (by simp)
       | (intro e he; exact absurd he (List.not_mem_nil e)))

theorem studentsLoop_shape (up : Int → Option Student) (purge : Bool) :
    ∀ (r i : Nat) (pid : Int) (db : DB) (t : List Event) (db1 : DB),
    refreshStudentsLoop up purge none r i pid db = (t, .ok db1) →
    (r = 0 ∧ t = []) ∨ ∃ t0, t = t0 ++ [Event.pacingWait] := by
  intro r
  induction r with
  | zero =>
    intro i pid db t db1 h
    unfold refreshStudentsLoop at h
    rw [Prod.mk.injEq] at h
    exact Or.inl ⟨rfl, h.1.symm⟩
  | succ r ih =>
    intro i pid db t db1 h
    unfold refreshStudentsLoop at h
    split at h
    rename_i ev1 res heq1
    split at h
    · rw [Prod.mk.injEq] at h
      exact absurd h.2 (fun hc => Except.noConfusion hc)
    · rename_i db'
      rw [if_neg (fun hc => Option.noConfusion hc)] at h
      split at h
      rename_i ev2 res2 hloop2
      rw [Prod.mk.injEq] at h
      obtain ⟨ht, hres⟩ := h
      subst hres
      rcases ih (i + 1) (pid + 1) db' ev2 db1 hloop2 with ⟨-, hnil⟩ | ⟨t0, ht0⟩
      · subst hnil
        exact Or.inr ⟨ev1, by rw [← ht]; simp⟩
      · exact Or.inr ⟨ev1 ++ Event.pacingWait :: t0, by rw [← ht, ht0]; simp⟩

theorem studentsLoop_count (up : Int → Option Student) (purge : Bool) :
    ∀ (r i : Nat) (pid : Int) (db : DB) (t : List Event) (db1 : DB),
    refreshStudentsLoop up purge none r i pid db = (t, .ok db1) →
    t.count Event.pacingWait = r := by
  intro r
  induction r with
  | zero =>
    intro i pid db t db1 h
    unfold refreshStudentsLoop at h
    rw [Prod.mk.injEq] at h
    rw [← h.1]
    rfl
  | succ r ih =>
    intro i pid db t db1 h
    unfold refreshStudentsLoop at h
    split at h
    rename_i ev1 res heq1
    split at h
    · rw [Prod.mk.injEq] at h
      exact absurd h.2 (fun hc => Except.noConfusion hc)
    · rename_i db'
      rw [if_neg (fun hc => Option.noConfusion hc)] at h
      split at h
      rename_i ev2 res2 hloop2
      rw [Prod.mk.injEq] at h
      obtain ⟨ht, hres⟩ := h
      subst hres
      have h1 : ev1.count Event.pacingWait = 0 :=
        List.count_eq_zero.mpr (fun hmem => (refreshIter_no_wait heq1 _ hmem) rfl)
      have h2 := ih (i + 1) (pid + 1) db' ev2 db1 hloop2
      rw [← ht]
      simp [List.count_append, List.count_cons, h1, h2]

theorem studentsLoop_cancel (up : Int → Option Student) (purge : Bool) :
    ∀ (d i r : Nat) (pid : Int) (db : DB) (t : List Event) (db1 : DB),
    i + d < i + r →
    refreshStudentsLoop up purge none (d + 1) i pid db = (t, .ok db1) →
    refreshStudentsLoop up purge (some (i + d)) r i pid db =
      (t.dropLast ++ [Event.ctxDone],
       .error (.ctxCanceled "refresh students: context canceled")) := by
  intro d
  induction d with
  | zero =>
    intro i r pid db t db1 hlt h
    obtain ⟨r', rfl⟩ : ∃ r', r = r' + 1 := ⟨r - 1, by omega⟩
    unfold refreshStudentsLoop at h
    split at h
    rename_i ev1 res heq1
    split at h
    · rw [Prod.mk.injEq] at h
      exact absurd h.2 (fun hc => Except.noConfusion hc)
    · rename_i db'
      rw [if_neg (fun hc => Option.noConfusion hc)] at h
      split at h
      rename_i ev2 res2 hloop2
      unfold refreshStudentsLoop at hloop2
      rw [Prod.mk.injEq] at hloop2
      obtain ⟨hev2, hres2⟩ := hloop2
      subst hev2
      subst hres2
      rw [Prod.mk.injEq] at h
      obtain ⟨ht, -⟩ := h
      unfold refreshStudentsLoop
      rw [heq1]
      show (if some (i + 0) = some i then _ else _) = _
      rw [if_pos (by rw [Nat.add_zero])]
      rw [← ht]
      simp
  | succ d ih =>
    intro i r pid db t db1 hlt h
    obtain ⟨r', rfl⟩ : ∃ r', r = r' + 1 := ⟨r - 1, by omega⟩
    unfold refreshStudentsLoop at h
    split at h
    rename_i ev1 res heq1
    split at h
    · rw [Prod.mk.injEq] at h
      exact absurd h.2 (fun hc => Except.noConfusion hc)
    · rename_i db'
      rw [if_neg (fun hc => Option.noConfusion hc)] at h
      split at h
      rename_i ev2 res2 hloop2
      rw [Prod.mk.injEq] at h
      obtain ⟨ht, hres2⟩ := h
      subst hres2
      have hne : ev2 ≠ [] := by
        rcases studentsLoop_shape up purge (d + 1) (i + 1) (pid + 1) db' ev2 db1 hloop2 with
          ⟨hd0, -⟩ | ⟨t0, ht0⟩
        · exact absurd hd0 (by omega)
        · rw [ht0]
          simp
      have hidx : i + (d + 1) = (i + 1) + d := by omega
      rw [hidx]
      have ihe := ih (i + 1) r' (pid + 1) db' ev2 db1 (by omega) hloop2
      unfold refreshStudentsLoop
      rw [heq1]
      show (if some (i + 1 + d) = some (i : Nat) then _ else _) = _
      rw [if_neg (fun hc => by
        have := Option.some.inj hc
        omega)]
      rw [ihe, ← ht]
      rw [Prod.mk.injEq]
      refine ⟨?_, rfl⟩
      rw [List.dropLast_append_of_ne_nil (ev1 ++ [Event.pacingWait]) hne]
      simp

theorem marksLoop_shape (svc : MarkSvc) (pid : Int) :
    ∀ (ps : List Period) (i : Nat) (db : DB) (t : List Event) (db1 : DB),
    refreshMarksLoop svc pid none ps i db = (t, .ok db1) →
    (ps = [] ∧ t = []) ∨ ∃ t0, t = t0 ++ [Event.pacingWait] := by
  intro ps
  induction ps with
  | nil =>
    intro i db t db1 h
    unfold refreshMarksLoop at h
    rw [Prod.mk.injEq] at h
    exact Or.inl ⟨rfl, h.1.symm⟩
  | cons period rest ih =>
    intro i db t db1 h
    unfold refreshMarksLoop at h
    split at h
    rename_i ev1 res heq1
    split at h
    · rw [Prod.mk.injEq] at h
      exact absurd h.2 (fun hc => Except.noConfusion hc)
    · rename_i db'
      rw [if_neg (fun hc => Option.noConfusion hc)] at h
      split at h
      rename_i ev2 res2 hloop2
      rw [Prod.mk.injEq] at h
      obtain ⟨ht, hres⟩ := h
      subst hres
      rcases ih (i + 1) db' ev2 db1 hloop2 with ⟨-, hnil⟩ | ⟨t0, ht0⟩
      · subst hnil
        exact Or.inr ⟨ev1, by rw [← ht]; simp⟩
      · exact Or.inr ⟨ev1 ++ Event.pacingWait :: t0, by rw [← ht, ht0]; simp⟩

theorem marksLoop_count (svc : MarkSvc) (pid : Int) :
    ∀ (ps : List Period) (i : Nat) (db : DB) (t : List Event) (db1 : DB),
    refreshMarksLoop svc pid none ps i db = (t, .ok db1) →
    t.count Event.pacingWait = ps.length := by
  intro ps
  induction ps with
  | nil =>
    intro i db t db1 h
    unfold refreshMarksLoop at h
    rw [Prod.mk.injEq] at h
    rw [← h.1]
    rfl
  | cons period rest ih =>
    intro i db t db1 h
    unfold refreshMarksLoop at h
    split at h
    rename_i ev1 res heq1
    split at h
    · rw [Prod.mk.injEq] at h
      exact absurd h.2 (fun hc => Except.noConfusion hc)
    · rename_i db'
      rw [if_neg (fun hc => Option.noConfusion hc)] at h
      split at h
      rename_i ev2 res2 hloop2
      rw [Prod.mk.injEq] at h
      obtain ⟨ht, hres⟩ := h
      subst hres
      have h1 : ev1.count Event.pacingWait = 0 :=
        List.count_eq_zero.mpr (fun hmem => (refreshMarksIter_no_wait heq1 _ hmem) rfl)
      have h2 := ih (i + 1) db' ev2 db1 hloop2
      rw [← ht]
      simp [List.count_append, List.count_cons, h1, h2]

theorem marksLoop_cancel (svc : MarkSvc) (pid : Int) :
    ∀ (d : Nat) (ps : List Period) (i : Nat) (db : DB) (t : List Event) (db1 : DB),
    d < ps.length →
    refreshMarksLoop svc pid none (ps.take (d + 1)) i db = (t, .ok db1) →
    refreshMarksLoop svc pid (some (i + d)) ps i db =
      (t.dropLast ++ [Event.ctxDone], .error (.ctxCanceled "context canceled")) := by
  intro d
  induction d with
  | zero =>
    intro ps i db t db1 hlt h
    obtain ⟨period, rest, rfl⟩ : ∃ p r, ps = p :: r := by
      cases ps with
      | nil => simp at hlt
      | cons p r => exact ⟨p, r, rfl⟩
    rw [List.take_succ_cons, List.take_zero] at h
    unfold refreshMarksLoop at h
    split at h
    rename_i ev1 res heq1
    split at h
    · rw [Prod.mk.injEq] at h
      exact absurd h.2 (fun hc => Except.noConfusion hc)
    · rename_i db'
      rw [if_neg (fun hc => Option.noConfusion hc)] at h
      split at h
      rename_i ev2 res2 hloop2
      unfold refreshMarksLoop at hloop2
      rw [Prod.mk.injEq] at hloop2
      obtain ⟨hev2, hres2⟩ := hloop2
      subst hev2
      subst hres2
      rw [Prod.mk.injEq] at h
      obtain ⟨ht, -⟩ := h
      unfold refreshMarksLoop
      rw [heq1]
      show (if some (i + 0) = some i then _ else _) = _
      rw [if_pos (by rw [Nat.add_zero])]
      rw [← ht]
      simp
  | succ d ih =>
    intro ps i db t db1 hlt h
    obtain ⟨period, rest, rfl⟩ : ∃ p r, ps = p :: r := by
      cases ps with
      | nil => simp at hlt
      | cons p r => exact ⟨p, r, rfl⟩
    rw [List.take_succ_cons] at h
    unfold refreshMarksLoop at h
    split at h
    rename_i ev1 res heq1
    split at h
    · rw [Prod.mk.injEq] at h
      exact absurd h.2 (fun hc => Except.noConfusion hc)
    · rename_i db'
      rw [if_neg (fun hc => Option.noConfusion hc)] at h
      split at h
      rename_i ev2 res2 hloop2
      rw [Prod.mk.injEq] at h
      obtain ⟨ht, hres2⟩ := h
      subst hres2
      have hne : ev2 ≠ [] := by
        rcases marksLoop_shape svc pid (rest.take (d + 1)) (i + 1) db' ev2 db1 hloop2 with
          ⟨hd0, -⟩ | ⟨t0, ht0⟩
        · rw [List.take_eq_nil_iff] at hd0
          rcases hd0 with hc | hc
          · exact absurd hc (by omega)
          · subst hc
            simp at hlt
        · rw [ht0]
          simp
      have hidx : i + (d + 1) = (i + 1) + d := by omega
      rw [hidx]
      have ihe := ih rest (i + 1) db' ev2 db1 (by simp at hlt; omega) hloop2
      unfold refreshMarksLoop
      rw [heq1]
      show (if some (i + 1 + d) = some (i : Nat) then _ else _) = _
      rw [if_neg (fun hc => by
        have := Option.some.inj hc
        omega)]
      rw [ihe, ← ht]
      rw [Prod.mk.injEq]
      refine ⟨?_, rfl⟩
      rw [List.dropLast_append_of_ne_nil (ev1 ++ [Event.pacingWait]) hne]
      simp

theorem refreshMarksIter_ok_student {svc : MarkSvc} {db : DB} {pid : Int} {period : Period}
    {t : List Event} {db' : DB}
    (h : refreshMarksIter svc db pid period = (t, .ok db')) :
    ∃ st, findStudentByPID db pid = .ok st := by
  unfold refreshMarksIter at h
  split at h
  · rw [Prod.mk.injEq] at h
    exact absurd h.2 (fun hc => Except.noConfusion hc)
  · rename_i marksLocal1 hattach
    unfold attachMarksSubjectsWithStudent at hattach
    split at hattach
    · exact Except.noConfusion hattach
    · rename_i st hst
      exact ⟨st, hst⟩

/-- C8: pacing and cancellation checkpoints of the two refresh loops.
Conjunct 1: a completed `RefreshStudents` loop of `r` iterations suspends
exactly `r` times at the pacing checkpoint (one `time.After` wait after
every per-pid iteration, hence one between any two consecutive ones).
Conjunct 2: if the cancellation token fires at checkpoint `k < n` (the
first `k+1` iterations having succeeded), the whole `RefreshStudents` call
returns immediately with a cancellation error, the committed store
untouched, and its event trace is exactly that of the first `k+1`
iterations with the final wait replaced by the token firing — so no further
upstream fetches or local writes happen.  Conjuncts 3 and 4: the same two
statements for the per-period loop of `RefreshMarks`. -/
theorem c8_pacing_and_cancellation :
    (∀ (up : Int → Option Student) (purge : Bool) (r i : Nat) (pid : Int) (db : DB)
       (t : List Event) (db1 : DB),
       refreshStudentsLoop up purge none r i pid db = (t, .ok db1) →
       t.count Event.pacingWait = r)
    ∧ (∀ (up : Int → Option Student) (req : RefreshStudentsReq) (k : Nat) (db : DB)
       (t : List Event) (db1 : DB),
       k < req.n →
       refreshStudentsLoop up req.purge none (k + 1) 0 req.startPID db = (t, .ok db1) →
       StudentService.RefreshStudents up req (some k) db =
         (t.dropLast ++ [Event.ctxDone],
          .error (.ctxCanceled "refresh students: context canceled"), db))
    ∧ (∀ (svc : MarkSvc) (pid : Int) (ps : List Period) (i : Nat) (db : DB)
       (t : List Event) (db1 : DB),
       refreshMarksLoop svc pid none ps i db = (t, .ok db1) →
       t.count Event.pacingWait = ps.length)
    ∧ (∀ (svc : MarkSvc) (periods : List Period) (pid : Int) (k : Nat) (db : DB)
       (t : List Event) (db1 : DB),
       k < periods.length →
       refreshMarksLoop svc pid none (periods.take (k + 1)) 0 db = (t, .ok db1) →
       MarkService.RefreshMarks svc periods pid (some k) db =
         (t.dropLast ++ [Event.ctxDone], .error (.ctxCanceled "context canceled"), db)) := by
  refine ⟨?_, ?_, ?_, ?_⟩
  · intro up purge r i pid db t db1 h
    exact studentsLoop_count up purge r i pid db t db1 h
  · intro up req k db t db1 hk h
    have hc := studentsLoop_cancel up req.purge k 0 req.n req.startPID db t db1 (by omega) h
    rw [Nat.zero_add] at hc
    unfold StudentService.RefreshStudents
    rw [hc]
  · intro svc pid ps i db t db1 h
    exact marksLoop_count svc pid ps i db t db1 h
  · intro svc periods pid k db t db1 hk h
    have hcopy := h
    obtain ⟨p0, rest, rfl⟩ : ∃ p r, periods = p :: r := by
      cases periods with
      | nil => simp at hk
      | cons p r => exact ⟨p, r, rfl⟩
    rw [List.take_succ_cons] at hcopy
    unfold refreshMarksLoop at hcopy
    split at hcopy
    rename_i ev1 res heq1
    split at hcopy
    · rw [Prod.mk.injEq] at hcopy
      exact absurd hcopy.2 (fun hc => Except.noConfusion hc)
    · obtain ⟨st, hst⟩ := refreshMarksIter_ok_student heq1
      have hc := marksLoop_cancel svc pid k (p0 :: rest) 0 db t db1 hk h
      rw [Nat.zero_add] at hc
      unfold MarkService.RefreshMarks
      rw [hst, hc]

/-- C8 witness: a one-iteration run pacing count, and cancellations at
checkpoint 0 of a two-pid student refresh and a two-period mark refresh. -/
theorem c8_pacing_and_cancellation_witness :
    ([Event.fetchEngageStudent 0, Event.pacingWait].count Event.pacingWait = 1)
    ∧ StudentService.RefreshStudents upW8 { startPID := 0, n := 2, purge := false } (some 0) {} =
        ([Event.fetchEngageStudent 0, Event.ctxDone],
         .error (.ctxCanceled "refresh students: context canceled"), {})
    ∧ ([Event.fetchEngageMarks 7 perW5, Event.pacingWait].count Event.pacingWait = 1)
    ∧ MarkService.RefreshMarks svcW8 [perW5, perW8b] 7 (some 0) dbW5 =
        ([Event.fetchEngageMarks 7 perW5, Event.ctxDone],
         .error (.ctxCanceled "context canceled"), dbW5) := by
  refine ⟨?_, ?_, ?_, ?_⟩
  · exact c8_pacing_and_cancellation.1 upW8 false 1 0 0 {}
      [Event.fetchEngageStudent 0, Event.pacingWait] {} rfl
  · exact c8_pacing_and_cancellation.2.1 upW8 { startPID := 0, n := 2, purge := false } 0 {}
      [Event.fetchEngageStudent 0, Event.pacingWait] {} (by decide) rfl
  · exact c8_pacing_and_cancellation.2.2.1 svcW8 7 [perW5] 0 dbW5
      [Event.fetchEngageMarks 7 perW5, Event.pacingWait] dbW5 rfl
  · exact c8_pacing_and_cancellation.2.2.2 svcW8 [perW5, perW8b] 7 0 dbW5
      [Event.fetchEngageMarks 7 perW5, Event.pacingWait] dbW5 (by decide) rfl
